import Mathlib

/-!
Verification model of the mobile HTTP stream `Dispatcher`
(`src/mobile/library/common/http/dispatcher.h`).

The repository contains only the header: the class declarations, their
fields and the documented contracts. The data model below (the
`DirectStream` container, its `DirectStreamCallbacks` adapter, and the
`streams_` registry) is embedded from the header; the bodies of the
public operations and of the inbound callbacks are not part of the
sources, so every operation is modelled from the specification, as the
doc comments note.

The state of the whole subsystem is the registry (a finite map from
stream handle to container, represented as an association list).  Every
operation and every inbound transport event is a `Cmd`; a `step` of the
machine produces the next state, the synchronous status returned to the
caller (for public operations), and the ordered list of observable
`Action`s performed: Observer notifications, transport calls and
registry cleanups.  `run` folds a whole trace of commands.
-/

namespace EnvoyMobile

/-- Header collection: ordered name/value string pairs, repeated names
permitted.  Used for headers, metadata and trailers. -/
abbrev HeaderMap := List (String × String)

/-- Body bytes of a single data frame. -/
abbrev ByteBuffer := List Nat

/-- Modelled from the spec: the `Status` boundary type is a small closed
set of result codes returned synchronously from every public operation
(`envoy_status_t` in `library/common/types/c_types.h`, which is not in
the sources). -/
inductive EnvoyStatus where
  | success
  | notFound
  | alreadyExists
deriving DecidableEq, Repr

/-- Inbound Event Adapter (`Dispatcher::DirectStreamCallbacks`,
dispatcher.h lines 49-66): holds the owning stream handle and the
caller-supplied observer, both `const`, fixed at construction.  The
observer is externally owned; the model identifies it by an opaque
numeric identity. -/
structure DirectStreamCallbacks where
  stream_handle_ : Nat
  observer_ : Nat
deriving DecidableEq, Repr

/-- Stream State Container (`Dispatcher::DirectStream`, dispatcher.h
lines 74-91): the `const` stream handle, the owned adapter `callbacks_`,
and the transient frame storage `headers_`, `metadata_`, `trailers_`.
The non-owning `underlying_stream_` reference is represented by the
transport calls the model emits rather than by a stored value. -/
structure DirectStream where
  stream_handle_ : Nat
  callbacks_ : DirectStreamCallbacks
  headers_ : Option HeaderMap
  metadata_ : List HeaderMap
  trailers_ : Option HeaderMap
deriving DecidableEq, Repr

/-- The Stream Orchestrator state: the handle-to-container registry
`streams_` (dispatcher.h line 100), as an association list. -/
structure Dispatcher where
  streams_ : List (Nat × DirectStream)
deriving DecidableEq, Repr

/-- The freshly constructed `Dispatcher`: empty registry. -/
def Dispatcher.init : Dispatcher := ⟨[]⟩

/-- Observer notifications, each tagged by the adapter with its owning
handle (the fixed `stream_handle_` of the `DirectStreamCallbacks`). -/
inductive ObsEvent where
  | onHeaders (h : Nat) (headers : HeaderMap) (endRemote : Bool)
  | onData (h : Nat) (data : ByteBuffer) (endRemote : Bool)
  | onMetadata (h : Nat) (headers : HeaderMap)
  | onTrailers (h : Nat) (headers : HeaderMap)
  | onComplete (h : Nat)
  | onReset (h : Nat)
deriving DecidableEq, Repr

/-- The handle an Observer notification is tagged with. -/
def ObsEvent.handle : ObsEvent → Nat
  | .onHeaders h _ _ => h
  | .onData h _ _ => h
  | .onMetadata h _ => h
  | .onTrailers h _ => h
  | .onComplete h => h
  | .onReset h => h

/-- Outbound calls forwarded to the transport collaborator
(the `AsyncClient::Stream` reachable through `underlying_stream_`, and
stream initiation through the cluster manager). -/
inductive TransportCall where
  | newStream (h : Nat)
  | sendHeaders (h : Nat) (headers : HeaderMap) (endStream : Bool)
  | sendData (h : Nat) (data : ByteBuffer) (endStream : Bool)
  | sendMetadata (h : Nat) (headers : HeaderMap) (endStream : Bool)
  | sendTrailers (h : Nat) (headers : HeaderMap)
  | reset (h : Nat)
deriving DecidableEq, Repr

/-- One observable action of the subsystem, in the order performed:
a notification delivered to an Observer (identified by its opaque
identity), a call into the transport, or the erasure of a registry
entry by `cleanup`. -/
inductive Action where
  | obs (o : Nat) (e : ObsEvent)
  | transport (t : TransportCall)
  | cleanup (h : Nat)
deriving DecidableEq, Repr

/-- Association-list lookup on the registry, first match by key. -/
def lookupStream : List (Nat × DirectStream) → Nat → Option DirectStream
  | [], _ => none
  | p :: ps, h => if p.1 = h then some p.2 else lookupStream ps h

/-- Association-list erasure: removes every entry keyed by `h`. -/
def eraseStream : List (Nat × DirectStream) → Nat → List (Nat × DirectStream)
  | [], _ => []
  | p :: ps, h => if p.1 = h then eraseStream ps h else p :: eraseStream ps h

/-- Association-list update: replaces the container of every entry keyed
by `h` with `ds`. -/
def setStream : List (Nat × DirectStream) → Nat → DirectStream → List (Nat × DirectStream)
  | [], _, _ => []
  | p :: ps, h, ds =>
    if p.1 = h then (p.1, ds) :: setStream ps h ds else p :: setStream ps h ds

/-- Model of `Dispatcher::getStream` (dispatcher.h line 97): registry lookup. -/
def Dispatcher.getStream (d : Dispatcher) (h : Nat) : Option DirectStream :=
  lookupStream d.streams_ h

/-- Model of `Dispatcher::cleanup` (dispatcher.h line 98).  Modelled from the
spec: erases the registry entry and destroys its container (the bodies
are not in the sources). -/
def Dispatcher.cleanup (d : Dispatcher) (h : Nat) : Dispatcher :=
  ⟨eraseStream d.streams_ h⟩

/-- Result of one step: the next state, the synchronous status (`some`
for public operations, `none` for inbound transport events), and the
ordered observable actions. -/
structure StepOut where
  state : Dispatcher
  status : Option EnvoyStatus
  actions : List Action
deriving DecidableEq, Repr

/-- Model of `Dispatcher::startStream`.  Modelled from the spec: fails with
`AlreadyExists` if the handle is already registered (no side effect);
otherwise asks the transport to open a stream, constructs a container
whose adapter is wired to `observer`, inserts it keyed by `handle`, and
returns `Success` immediately. -/
def Dispatcher.startStream (d : Dispatcher) (h : Nat) (observer : Nat) : StepOut :=
  match d.getStream h with
  | some _ => ⟨d, some .alreadyExists, []⟩
  | none =>
    let cb : DirectStreamCallbacks := ⟨h, observer⟩
    let ds : DirectStream := ⟨h, cb, none, [], none⟩
    ⟨⟨(h, ds) :: d.streams_⟩, some .success, [.transport (.newStream h)]⟩

/-- Model of `Dispatcher::sendHeaders`.  Modelled from the spec: `NotFound` if
the handle is absent (no side effect); otherwise forward the frame to
the transport stream.  `end_stream` marks local half-close and never
removes the registry entry by itself. -/
def Dispatcher.sendHeaders (d : Dispatcher) (h : Nat) (headers : HeaderMap)
    (endStream : Bool) : StepOut :=
  match d.getStream h with
  | none => ⟨d, some .notFound, []⟩
  | some ds =>
    ⟨d, some .success, [.transport (.sendHeaders ds.callbacks_.stream_handle_ headers endStream)]⟩

/-- Model of `Dispatcher::sendData`.  Modelled from the spec: same contract as
`sendHeaders`, for a body frame. -/
def Dispatcher.sendData (d : Dispatcher) (h : Nat) (data : ByteBuffer)
    (endStream : Bool) : StepOut :=
  match d.getStream h with
  | none => ⟨d, some .notFound, []⟩
  | some ds =>
    ⟨d, some .success, [.transport (.sendData ds.callbacks_.stream_handle_ data endStream)]⟩

/-- Model of `Dispatcher::sendMetadata`.  Modelled from the spec: same contract
as `sendHeaders`, for a metadata frame. -/
def Dispatcher.sendMetadata (d : Dispatcher) (h : Nat) (headers : HeaderMap)
    (endStream : Bool) : StepOut :=
  match d.getStream h with
  | none => ⟨d, some .notFound, []⟩
  | some ds =>
    ⟨d, some .success, [.transport (.sendMetadata ds.callbacks_.stream_handle_ headers endStream)]⟩

/-- Model of `Dispatcher::sendTrailers`.  Modelled from the spec: forwards the
trailers and implicitly finalizes the local direction; no end flag. -/
def Dispatcher.sendTrailers (d : Dispatcher) (h : Nat) (headers : HeaderMap) : StepOut :=
  match d.getStream h with
  | none => ⟨d, some .notFound, []⟩
  | some ds =>
    ⟨d, some .success, [.transport (.sendTrailers ds.callbacks_.stream_handle_ headers)]⟩

/-- Model of `Dispatcher::resetStream`.  Modelled from the spec: forces abnormal
termination of both directions; if the handle is registered, the
transport stream is aborted, the Observer receives one error
notification, and cleanup runs; otherwise `NotFound` and a no-op. -/
def Dispatcher.resetStream (d : Dispatcher) (h : Nat) : StepOut :=
  match d.getStream h with
  | none => ⟨d, some .notFound, []⟩
  | some ds =>
    ⟨d.cleanup h, some .success,
      [.transport (.reset ds.callbacks_.stream_handle_),
       .obs ds.callbacks_.observer_ (.onReset ds.callbacks_.stream_handle_),
       .cleanup h]⟩

/-- Model of `DirectStreamCallbacks::onHeaders` as dispatched through the
registry.  Modelled from the spec: a pending transport event whose
registry lookup fails is silently dropped; otherwise the container
stores the most recently received header collection and the Observer is
notified, the notification tagged with the adapter's handle.
`endRemote` marks remote half-close only and triggers no cleanup. -/
def Dispatcher.onHeadersEvent (d : Dispatcher) (h : Nat) (headers : HeaderMap)
    (endRemote : Bool) : StepOut :=
  match d.getStream h with
  | none => ⟨d, none, []⟩
  | some ds =>
    ⟨⟨setStream d.streams_ h { ds with headers_ := some headers }⟩, none,
      [.obs ds.callbacks_.observer_
        (.onHeaders ds.callbacks_.stream_handle_ headers endRemote)]⟩

/-- Model of `DirectStreamCallbacks::onData` as dispatched through the registry.
Modelled from the spec: dropped if the lookup fails; otherwise the
Observer is notified.  Body bytes are not retained by the container. -/
def Dispatcher.onDataEvent (d : Dispatcher) (h : Nat) (data : ByteBuffer)
    (endRemote : Bool) : StepOut :=
  match d.getStream h with
  | none => ⟨d, none, []⟩
  | some ds =>
    ⟨d, none,
      [.obs ds.callbacks_.observer_ (.onData ds.callbacks_.stream_handle_ data endRemote)]⟩

/-- Inbound metadata frame as dispatched through the registry.
Modelled from the spec: dropped if the lookup fails; otherwise the
frame is appended to the container's ordered `metadata_` sequence
(dispatcher.h line 89) and the Observer's `onMetadata` slot is
notified. -/
def Dispatcher.onMetadataEvent (d : Dispatcher) (h : Nat) (headers : HeaderMap) : StepOut :=
  match d.getStream h with
  | none => ⟨d, none, []⟩
  | some ds =>
    ⟨⟨setStream d.streams_ h { ds with metadata_ := ds.metadata_ ++ [headers] }⟩, none,
      [.obs ds.callbacks_.observer_ (.onMetadata ds.callbacks_.stream_handle_ headers)]⟩

/-- Model of `DirectStreamCallbacks::onTrailers` as dispatched through the
registry.  Modelled from the spec: dropped if the lookup fails;
otherwise the container stores the most recently received trailer
collection and the Observer is notified; trailers finalize the remote
direction but are not the terminal signal. -/
def Dispatcher.onTrailersEvent (d : Dispatcher) (h : Nat) (headers : HeaderMap) : StepOut :=
  match d.getStream h with
  | none => ⟨d, none, []⟩
  | some ds =>
    ⟨⟨setStream d.streams_ h { ds with trailers_ := some headers }⟩, none,
      [.obs ds.callbacks_.observer_ (.onTrailers ds.callbacks_.stream_handle_ headers)]⟩

/-- Model of `DirectStreamCallbacks::onComplete` as dispatched through the
registry.  Modelled from the spec: the canonical success-path terminal
signal delivers a final notification to the Observer and then calls
`cleanup(handle)`; dropped if the lookup fails. -/
def Dispatcher.onCompleteEvent (d : Dispatcher) (h : Nat) : StepOut :=
  match d.getStream h with
  | none => ⟨d, none, []⟩
  | some ds =>
    ⟨d.cleanup h, none,
      [.obs ds.callbacks_.observer_ (.onComplete ds.callbacks_.stream_handle_),
       .cleanup h]⟩

/-- Model of `DirectStreamCallbacks::onReset` as dispatched through the registry.
Modelled from the spec: abnormal termination delivers an error
notification to the Observer and then calls `cleanup(handle)`; dropped
if the lookup fails. -/
def Dispatcher.onResetEvent (d : Dispatcher) (h : Nat) : StepOut :=
  match d.getStream h with
  | none => ⟨d, none, []⟩
  | some ds =>
    ⟨d.cleanup h, none,
      [.obs ds.callbacks_.observer_ (.onReset ds.callbacks_.stream_handle_),
       .cleanup h]⟩

/-- One command to the subsystem: a public operation invoked by the
caller, or an inbound transport event arriving at the adapter. -/
inductive Cmd where
  | startStream (h observer : Nat)
  | sendHeaders (h : Nat) (headers : HeaderMap) (endLocal : Bool)
  | sendData (h : Nat) (data : ByteBuffer) (endLocal : Bool)
  | sendMetadata (h : Nat) (headers : HeaderMap) (endLocal : Bool)
  | sendTrailers (h : Nat) (headers : HeaderMap)
  | resetStream (h : Nat)
  | evHeaders (h : Nat) (headers : HeaderMap) (endRemote : Bool)
  | evData (h : Nat) (data : ByteBuffer) (endRemote : Bool)
  | evMetadata (h : Nat) (headers : HeaderMap)
  | evTrailers (h : Nat) (headers : HeaderMap)
  | evComplete (h : Nat)
  | evReset (h : Nat)
deriving DecidableEq, Repr

/-- The handle a command concerns. -/
def Cmd.handle : Cmd → Nat
  | .startStream h _ => h
  | .sendHeaders h _ _ => h
  | .sendData h _ _ => h
  | .sendMetadata h _ _ => h
  | .sendTrailers h _ => h
  | .resetStream h => h
  | .evHeaders h _ _ => h
  | .evData h _ _ => h
  | .evMetadata h _ => h
  | .evTrailers h _ => h
  | .evComplete h => h
  | .evReset h => h

/-- One step of the subsystem. -/
def step (d : Dispatcher) : Cmd → StepOut
  | .startStream h o => d.startStream h o
  | .sendHeaders h hs e => d.sendHeaders h hs e
  | .sendData h b e => d.sendData h b e
  | .sendMetadata h hs e => d.sendMetadata h hs e
  | .sendTrailers h hs => d.sendTrailers h hs
  | .resetStream h => d.resetStream h
  | .evHeaders h hs e => d.onHeadersEvent h hs e
  | .evData h b e => d.onDataEvent h b e
  | .evMetadata h hs => d.onMetadataEvent h hs
  | .evTrailers h hs => d.onTrailersEvent h hs
  | .evComplete h => d.onCompleteEvent h
  | .evReset h => d.onResetEvent h

/-- Folding a whole trace of commands: final state and the concatenated
action log, in order. -/
def run (d : Dispatcher) : List Cmd → Dispatcher × List Action
  | [] => (d, [])
  | c :: cs =>
    let o := step d c
    let r := run o.state cs
    (r.1, o.actions ++ r.2)

/-- Actions that are Observer notifications tagged with handle `h`. -/
def isObsFor (h : Nat) : Action → Bool
  | .obs _ e => e.handle == h
  | _ => false

/-- Actions that are registry cleanups of handle `h`. -/
def isCleanupFor (h : Nat) : Action → Bool
  | .cleanup h' => h' == h
  | _ => false

/-- Actions that are terminal Observer notifications (`onComplete` or
`onReset`) tagged with handle `h`. -/
def isTerminalFor (h : Nat) : Action → Bool
  | .obs _ (.onComplete h') => h' == h
  | .obs _ (.onReset h') => h' == h
  | _ => false

/-- Actions that are transport stream initiations for handle `h`. -/
def isNewStreamFor (h : Nat) : Action → Bool
  | .transport (.newStream h') => h' == h
  | _ => false

/-- Commands that are `startStream` calls on handle `h`. -/
def isStartFor (h : Nat) : Cmd → Bool
  | .startStream h' _ => h' == h
  | _ => false

/-- Commands that are one of the five lookup-guarded public operations
on handle `h`: `sendHeaders`, `sendData`, `sendMetadata`,
`sendTrailers`, `resetStream`. -/
def isSendOrResetFor (h : Nat) : Cmd → Bool
  | .sendHeaders h' _ _ => h' == h
  | .sendData h' _ _ => h' == h
  | .sendMetadata h' _ _ => h' == h
  | .sendTrailers h' _ => h' == h
  | .resetStream h' => h' == h
  | _ => false

/-- Commands that are non-terminal inbound transport events for handle
`h`: headers, data, metadata or trailers frames. -/
def isInboundFrameFor (h : Nat) : Cmd → Bool
  | .evHeaders h' _ _ => h' == h
  | .evData h' _ _ => h' == h
  | .evMetadata h' _ => h' == h
  | .evTrailers h' _ => h' == h
  | _ => false

/-- Registry well-formedness: every entry's container and its adapter
store exactly the handle the entry is keyed by (both are `const`,
fixed at construction). -/
def WF (d : Dispatcher) : Prop :=
  ∀ p ∈ d.streams_, p.2.stream_handle_ = p.1 ∧ p.2.callbacks_.stream_handle_ = p.1

instance (d : Dispatcher) : Decidable (WF d) :=
  List.decidableBAll _ d.streams_

/- ### Association-list lemmas -/

theorem lookupStream_eraseStream_self (l : List (Nat × DirectStream)) (h : Nat) :
    lookupStream (eraseStream l h) h = none := by
  induction l with
  | nil => rfl
  | cons p ps ih =>
    by_cases hp : p.1 = h
    · simpa [eraseStream, hp] using ih
    · simp [eraseStream, lookupStream, hp, ih]

theorem lookupStream_eraseStream_ne (l : List (Nat × DirectStream)) (h h' : Nat)
    (hne : h' ≠ h) : lookupStream (eraseStream l h) h' = lookupStream l h' := by
  induction l with
  | nil => rfl
  | cons p ps ih =>
    by_cases hp : p.1 = h
    · simp [eraseStream, lookupStream, hp, Ne.symm hne, ih]
    · by_cases hp' : p.1 = h'
      · simp [eraseStream, lookupStream, hp, hp', hne]
      · simp [eraseStream, lookupStream, hp, hp', ih]

theorem lookupStream_setStream_self (l : List (Nat × DirectStream)) (h : Nat)
    (ds : DirectStream) :
    lookupStream (setStream l h ds) h = (lookupStream l h).map (fun _ => ds) := by
  induction l with
  | nil => rfl
  | cons p ps ih =>
    by_cases hp : p.1 = h
    · simp [setStream, lookupStream, hp]
    · simp [setStream, lookupStream, hp, ih]

theorem lookupStream_setStream_ne (l : List (Nat × DirectStream)) (h h' : Nat)
    (ds : DirectStream) (hne : h' ≠ h) :
    lookupStream (setStream l h ds) h' = lookupStream l h' := by
  induction l with
  | nil => rfl
  | cons p ps ih =>
    by_cases hp : p.1 = h
    · simp [setStream, lookupStream, hp, Ne.symm hne, ih]
    · by_cases hp' : p.1 = h'
      · simp [setStream, lookupStream, hp, hp', hne]
      · simp [setStream, lookupStream, hp, hp', ih]

theorem mem_of_lookupStream (l : List (Nat × DirectStream)) (h : Nat)
    (ds : DirectStream) (hl : lookupStream l h = some ds) : (h, ds) ∈ l := by
  induction l with
  | nil => simp [lookupStream] at hl
  | cons p ps ih =>
    by_cases hp : p.1 = h
    · subst hp
      simp [lookupStream] at hl
      subst hl
      simp
    · simp only [lookupStream, if_neg hp] at hl
      exact List.mem_cons_of_mem _ (ih hl)

theorem mem_of_mem_eraseStream (l : List (Nat × DirectStream)) (h : Nat)
    (p : Nat × DirectStream) (hp : p ∈ eraseStream l h) : p ∈ l := by
  induction l with
  | nil => simp [eraseStream] at hp
  | cons q qs ih =>
    by_cases hq : q.1 = h
    · simp only [eraseStream, if_pos hq] at hp
      exact List.mem_cons_of_mem _ (ih hp)
    · simp only [eraseStream, if_neg hq] at hp
      rcases List.mem_cons.mp hp with h1 | h2
      · exact h1 ▸ List.mem_cons_self _ _
      · exact List.mem_cons_of_mem _ (ih h2)

theorem mem_of_mem_setStream (l : List (Nat × DirectStream)) (h : Nat)
    (ds : DirectStream) (p : Nat × DirectStream) (hp : p ∈ setStream l h ds) :
    p ∈ l ∨ p = (h, ds) := by
  induction l with
  | nil => simp [setStream] at hp
  | cons q qs ih =>
    by_cases hq : q.1 = h
    · simp only [setStream, if_pos hq] at hp
      rcases List.mem_cons.mp hp with h1 | h2
      · right
        rw [h1, hq]
      · rcases ih h2 with h3 | h3
        · exact Or.inl (List.mem_cons_of_mem _ h3)
        · exact Or.inr h3
    · simp only [setStream, if_neg hq] at hp
      rcases List.mem_cons.mp hp with h1 | h2
      · exact Or.inl (h1 ▸ List.mem_cons_self _ _)
      · rcases ih h2 with h3 | h3
        · exact Or.inl (List.mem_cons_of_mem _ h3)
        · exact Or.inr h3

theorem eraseStream_sublist (l : List (Nat × DirectStream)) (h : Nat) :
    List.Sublist (eraseStream l h) l := by
  induction l with
  | nil => simp [eraseStream]
  | cons p ps ih =>
    by_cases hp : p.1 = h
    · simpa [eraseStream, hp] using ih.cons p
    · simpa [eraseStream, hp] using ih.cons₂ p

theorem keys_setStream (l : List (Nat × DirectStream)) (h : Nat) (ds : DirectStream) :
    (setStream l h ds).map Prod.fst = l.map Prod.fst := by
  induction l with
  | nil => rfl
  | cons p ps ih =>
    by_cases hp : p.1 = h
    · simp [setStream, hp, ih]
    · simp [setStream, hp, ih]

theorem lookupStream_eq_none_iff (l : List (Nat × DirectStream)) (h : Nat) :
    lookupStream l h = none ↔ h ∉ l.map Prod.fst := by
  induction l with
  | nil => simp [lookupStream]
  | cons p ps ih =>
    by_cases hp : p.1 = h
    · simp [lookupStream, hp]
    · simp [lookupStream, hp, ih, Ne.symm hp]

/- ### Step-unfolding lemmas, one per command and registry case -/

theorem step_start_absent (d : Dispatcher) (h o : Nat) (hd : d.getStream h = none) :
    step d (.startStream h o) =
      ⟨⟨(h, ⟨h, ⟨h, o⟩, none, [], none⟩) :: d.streams_⟩, some .success,
       [.transport (.newStream h)]⟩ := by
  simp [step, Dispatcher.startStream, hd]

theorem step_start_present (d : Dispatcher) (h o : Nat) (ds : DirectStream)
    (hd : d.getStream h = some ds) :
    step d (.startStream h o) = ⟨d, some .alreadyExists, []⟩ := by
  simp [step, Dispatcher.startStream, hd]

theorem step_sendHeaders_absent (d : Dispatcher) (h : Nat) (hs : HeaderMap) (e : Bool)
    (hd : d.getStream h = none) :
    step d (.sendHeaders h hs e) = ⟨d, some .notFound, []⟩ := by
  simp [step, Dispatcher.sendHeaders, hd]

theorem step_sendHeaders_present (d : Dispatcher) (h : Nat) (hs : HeaderMap) (e : Bool)
    (ds : DirectStream) (hd : d.getStream h = some ds) :
    step d (.sendHeaders h hs e) =
      ⟨d, some .success,
       [.transport (.sendHeaders ds.callbacks_.stream_handle_ hs e)]⟩ := by
  simp [step, Dispatcher.sendHeaders, hd]

theorem step_sendData_absent (d : Dispatcher) (h : Nat) (b : ByteBuffer) (e : Bool)
    (hd : d.getStream h = none) :
    step d (.sendData h b e) = ⟨d, some .notFound, []⟩ := by
  simp [step, Dispatcher.sendData, hd]

theorem step_sendData_present (d : Dispatcher) (h : Nat) (b : ByteBuffer) (e : Bool)
    (ds : DirectStream) (hd : d.getStream h = some ds) :
    step d (.sendData h b e) =
      ⟨d, some .success,
       [.transport (.sendData ds.callbacks_.stream_handle_ b e)]⟩ := by
  simp [step, Dispatcher.sendData, hd]

theorem step_sendMetadata_absent (d : Dispatcher) (h : Nat) (hs : HeaderMap) (e : Bool)
    (hd : d.getStream h = none) :
    step d (.sendMetadata h hs e) = ⟨d, some .notFound, []⟩ := by
  simp [step, Dispatcher.sendMetadata, hd]

theorem step_sendMetadata_present (d : Dispatcher) (h : Nat) (hs : HeaderMap) (e : Bool)
    (ds : DirectStream) (hd : d.getStream h = some ds) :
    step d (.sendMetadata h hs e) =
      ⟨d, some .success,
       [.transport (.sendMetadata ds.callbacks_.stream_handle_ hs e)]⟩ := by
  simp [step, Dispatcher.sendMetadata, hd]

theorem step_sendTrailers_absent (d : Dispatcher) (h : Nat) (hs : HeaderMap)
    (hd : d.getStream h = none) :
    step d (.sendTrailers h hs) = ⟨d, some .notFound, []⟩ := by
  simp [step, Dispatcher.sendTrailers, hd]

theorem step_sendTrailers_present (d : Dispatcher) (h : Nat) (hs : HeaderMap)
    (ds : DirectStream) (hd : d.getStream h = some ds) :
    step d (.sendTrailers h hs) =
      ⟨d, some .success,
       [.transport (.sendTrailers ds.callbacks_.stream_handle_ hs)]⟩ := by
  simp [step, Dispatcher.sendTrailers, hd]

theorem step_reset_absent (d : Dispatcher) (h : Nat) (hd : d.getStream h = none) :
    step d (.resetStream h) = ⟨d, some .notFound, []⟩ := by
  simp [step, Dispatcher.resetStream, hd]

theorem step_reset_present (d : Dispatcher) (h : Nat) (ds : DirectStream)
    (hd : d.getStream h = some ds) :
    step d (.resetStream h) =
      ⟨d.cleanup h, some .success,
       [.transport (.reset ds.callbacks_.stream_handle_),
        .obs ds.callbacks_.observer_ (.onReset ds.callbacks_.stream_handle_),
        .cleanup h]⟩ := by
  simp [step, Dispatcher.resetStream, hd]

theorem step_evHeaders_absent (d : Dispatcher) (h : Nat) (hs : HeaderMap) (e : Bool)
    (hd : d.getStream h = none) :
    step d (.evHeaders h hs e) = ⟨d, none, []⟩ := by
  simp [step, Dispatcher.onHeadersEvent, hd]

theorem step_evHeaders_present (d : Dispatcher) (h : Nat) (hs : HeaderMap) (e : Bool)
    (ds : DirectStream) (hd : d.getStream h = some ds) :
    step d (.evHeaders h hs e) =
      ⟨⟨setStream d.streams_ h { ds with headers_ := some hs }⟩, none,
       [.obs ds.callbacks_.observer_
         (.onHeaders ds.callbacks_.stream_handle_ hs e)]⟩ := by
  simp [step, Dispatcher.onHeadersEvent, hd]

theorem step_evData_absent (d : Dispatcher) (h : Nat) (b : ByteBuffer) (e : Bool)
    (hd : d.getStream h = none) :
    step d (.evData h b e) = ⟨d, none, []⟩ := by
  simp [step, Dispatcher.onDataEvent, hd]

theorem step_evData_present (d : Dispatcher) (h : Nat) (b : ByteBuffer) (e : Bool)
    (ds : DirectStream) (hd : d.getStream h = some ds) :
    step d (.evData h b e) =
      ⟨d, none,
       [.obs ds.callbacks_.observer_ (.onData ds.callbacks_.stream_handle_ b e)]⟩ := by
  simp [step, Dispatcher.onDataEvent, hd]

theorem step_evMetadata_absent (d : Dispatcher) (h : Nat) (hs : HeaderMap)
    (hd : d.getStream h = none) :
    step d (.evMetadata h hs) = ⟨d, none, []⟩ := by
  simp [step, Dispatcher.onMetadataEvent, hd]

theorem step_evMetadata_present (d : Dispatcher) (h : Nat) (hs : HeaderMap)
    (ds : DirectStream) (hd : d.getStream h = some ds) :
    step d (.evMetadata h hs) =
      ⟨⟨setStream d.streams_ h { ds with metadata_ := ds.metadata_ ++ [hs] }⟩, none,
       [.obs ds.callbacks_.observer_ (.onMetadata ds.callbacks_.stream_handle_ hs)]⟩ := by
  simp [step, Dispatcher.onMetadataEvent, hd]

theorem step_evTrailers_absent (d : Dispatcher) (h : Nat) (hs : HeaderMap)
    (hd : d.getStream h = none) :
    step d (.evTrailers h hs) = ⟨d, none, []⟩ := by
  simp [step, Dispatcher.onTrailersEvent, hd]

theorem step_evTrailers_present (d : Dispatcher) (h : Nat) (hs : HeaderMap)
    (ds : DirectStream) (hd : d.getStream h = some ds) :
    step d (.evTrailers h hs) =
      ⟨⟨setStream d.streams_ h { ds with trailers_ := some hs }⟩, none,
       [.obs ds.callbacks_.observer_ (.onTrailers ds.callbacks_.stream_handle_ hs)]⟩ := by
  simp [step, Dispatcher.onTrailersEvent, hd]

theorem step_evComplete_absent (d : Dispatcher) (h : Nat) (hd : d.getStream h = none) :
    step d (.evComplete h) = ⟨d, none, []⟩ := by
  simp [step, Dispatcher.onCompleteEvent, hd]

theorem step_evComplete_present (d : Dispatcher) (h : Nat) (ds : DirectStream)
    (hd : d.getStream h = some ds) :
    step d (.evComplete h) =
      ⟨d.cleanup h, none,
       [.obs ds.callbacks_.observer_ (.onComplete ds.callbacks_.stream_handle_),
        .cleanup h]⟩ := by
  simp [step, Dispatcher.onCompleteEvent, hd]

theorem step_evReset_absent (d : Dispatcher) (h : Nat) (hd : d.getStream h = none) :
    step d (.evReset h) = ⟨d, none, []⟩ := by
  simp [step, Dispatcher.onResetEvent, hd]

theorem step_evReset_present (d : Dispatcher) (h : Nat) (ds : DirectStream)
    (hd : d.getStream h = some ds) :
    step d (.evReset h) =
      ⟨d.cleanup h, none,
       [.obs ds.callbacks_.observer_ (.onReset ds.callbacks_.stream_handle_),
        .cleanup h]⟩ := by
  simp [step, Dispatcher.onResetEvent, hd]

/- ### Registry lookup after each state-shape change -/

theorem getStream_cons_self (d : Dispatcher) (h : Nat) (ds : DirectStream) :
    (⟨(h, ds) :: d.streams_⟩ : Dispatcher).getStream h = some ds := by
  simp [Dispatcher.getStream, lookupStream]

theorem getStream_cons_ne (d : Dispatcher) (h h' : Nat) (ds : DirectStream)
    (hne : h' ≠ h) :
    (⟨(h, ds) :: d.streams_⟩ : Dispatcher).getStream h' = d.getStream h' := by
  simp [Dispatcher.getStream, lookupStream, Ne.symm hne]

theorem getStream_cleanup_self (d : Dispatcher) (h : Nat) :
    (d.cleanup h).getStream h = none :=
  lookupStream_eraseStream_self d.streams_ h

theorem getStream_cleanup_ne (d : Dispatcher) (h h' : Nat) (hne : h' ≠ h) :
    (d.cleanup h).getStream h' = d.getStream h' :=
  lookupStream_eraseStream_ne d.streams_ h h' hne

theorem getStream_set_self (d : Dispatcher) (h : Nat) (ds : DirectStream) :
    (⟨setStream d.streams_ h ds⟩ : Dispatcher).getStream h
      = (d.getStream h).map (fun _ => ds) :=
  lookupStream_setStream_self d.streams_ h ds

theorem getStream_set_ne (d : Dispatcher) (h h' : Nat) (ds : DirectStream)
    (hne : h' ≠ h) :
    (⟨setStream d.streams_ h ds⟩ : Dispatcher).getStream h' = d.getStream h' :=
  lookupStream_setStream_ne d.streams_ h h' ds hne

/- ### Preservation of registry well-formedness -/

theorem WF_cleanup (d : Dispatcher) (h : Nat) (hwf : WF d) : WF (d.cleanup h) := by
  intro p hp
  exact hwf p (mem_of_mem_eraseStream d.streams_ h p hp)

theorem WF_setStream (d : Dispatcher) (h : Nat) (ds ds' : DirectStream)
    (hwf : WF d) (hd : d.getStream h = some ds)
    (h1 : ds'.stream_handle_ = ds.stream_handle_)
    (h2 : ds'.callbacks_.stream_handle_ = ds.callbacks_.stream_handle_) :
    WF (⟨setStream d.streams_ h ds'⟩ : Dispatcher) := by
  intro p hp
  rcases mem_of_mem_setStream d.streams_ h ds' p hp with hmem | rfl
  · exact hwf p hmem
  · have hds := hwf (h, ds) (mem_of_lookupStream d.streams_ h ds hd)
    exact ⟨h1.trans hds.1, h2.trans hds.2⟩

theorem WF_step (d : Dispatcher) (c : Cmd) (hwf : WF d) : WF (step d c).state := by
  cases c with
  | startStream h o =>
    rcases hd : d.getStream h with _ | ds
    · rw [step_start_absent d h o hd]
      intro p hp
      rcases List.mem_cons.mp hp with rfl | hp
      · exact ⟨rfl, rfl⟩
      · exact hwf p hp
    · rw [step_start_present d h o ds hd]
      exact hwf
  | sendHeaders h hs e =>
    rcases hd : d.getStream h with _ | ds
    · rw [step_sendHeaders_absent d h hs e hd]; exact hwf
    · rw [step_sendHeaders_present d h hs e ds hd]; exact hwf
  | sendData h b e =>
    rcases hd : d.getStream h with _ | ds
    · rw [step_sendData_absent d h b e hd]; exact hwf
    · rw [step_sendData_present d h b e ds hd]; exact hwf
  | sendMetadata h hs e =>
    rcases hd : d.getStream h with _ | ds
    · rw [step_sendMetadata_absent d h hs e hd]; exact hwf
    · rw [step_sendMetadata_present d h hs e ds hd]; exact hwf
  | sendTrailers h hs =>
    rcases hd : d.getStream h with _ | ds
    · rw [step_sendTrailers_absent d h hs hd]; exact hwf
    · rw [step_sendTrailers_present d h hs ds hd]; exact hwf
  | resetStream h =>
    rcases hd : d.getStream h with _ | ds
    · rw [step_reset_absent d h hd]; exact hwf
    · rw [step_reset_present d h ds hd]; exact WF_cleanup d h hwf
  | evHeaders h hs e =>
    rcases hd : d.getStream h with _ | ds
    · rw [step_evHeaders_absent d h hs e hd]; exact hwf
    · rw [step_evHeaders_present d h hs e ds hd]
      exact WF_setStream d h ds _ hwf hd rfl rfl
  | evData h b e =>
    rcases hd : d.getStream h with _ | ds
    · rw [step_evData_absent d h b e hd]; exact hwf
    · rw [step_evData_present d h b e ds hd]; exact hwf
  | evMetadata h hs =>
    rcases hd : d.getStream h with _ | ds
    · rw [step_evMetadata_absent d h hs hd]; exact hwf
    · rw [step_evMetadata_present d h hs ds hd]
      exact WF_setStream d h ds _ hwf hd rfl rfl
  | evTrailers h hs =>
    rcases hd : d.getStream h with _ | ds
    · rw [step_evTrailers_absent d h hs hd]; exact hwf
    · rw [step_evTrailers_present d h hs ds hd]
      exact WF_setStream d h ds _ hwf hd rfl rfl
  | evComplete h =>
    rcases hd : d.getStream h with _ | ds
    · rw [step_evComplete_absent d h hd]; exact hwf
    · rw [step_evComplete_present d h ds hd]; exact WF_cleanup d h hwf
  | evReset h =>
    rcases hd : d.getStream h with _ | ds
    · rw [step_evReset_absent d h hd]; exact hwf
    · rw [step_evReset_present d h ds hd]; exact WF_cleanup d h hwf

/- ### Frame lemma: a step never touches another handle's entry -/

theorem getStream_step_ne (d : Dispatcher) (c : Cmd) (h' : Nat)
    (hne : h' ≠ c.handle) :
    (step d c).state.getStream h' = d.getStream h' := by
  cases c with
  | startStream h o =>
    simp only [Cmd.handle] at hne
    rcases hd : d.getStream h with _ | ds
    · rw [step_start_absent d h o hd]
      exact getStream_cons_ne d h h' _ hne
    · rw [step_start_present d h o ds hd]
  | sendHeaders h hs e =>
    rcases hd : d.getStream h with _ | ds
    · rw [step_sendHeaders_absent d h hs e hd]
    · rw [step_sendHeaders_present d h hs e ds hd]
  | sendData h b e =>
    rcases hd : d.getStream h with _ | ds
    · rw [step_sendData_absent d h b e hd]
    · rw [step_sendData_present d h b e ds hd]
  | sendMetadata h hs e =>
    rcases hd : d.getStream h with _ | ds
    · rw [step_sendMetadata_absent d h hs e hd]
    · rw [step_sendMetadata_present d h hs e ds hd]
  | sendTrailers h hs =>
    rcases hd : d.getStream h with _ | ds
    · rw [step_sendTrailers_absent d h hs hd]
    · rw [step_sendTrailers_present d h hs ds hd]
  | resetStream h =>
    simp only [Cmd.handle] at hne
    rcases hd : d.getStream h with _ | ds
    · rw [step_reset_absent d h hd]
    · rw [step_reset_present d h ds hd]
      exact getStream_cleanup_ne d h h' hne
  | evHeaders h hs e =>
    simp only [Cmd.handle] at hne
    rcases hd : d.getStream h with _ | ds
    · rw [step_evHeaders_absent d h hs e hd]
    · rw [step_evHeaders_present d h hs e ds hd]
      exact getStream_set_ne d h h' _ hne
  | evData h b e =>
    rcases hd : d.getStream h with _ | ds
    · rw [step_evData_absent d h b e hd]
    · rw [step_evData_present d h b e ds hd]
  | evMetadata h hs =>
    simp only [Cmd.handle] at hne
    rcases hd : d.getStream h with _ | ds
    · rw [step_evMetadata_absent d h hs hd]
    · rw [step_evMetadata_present d h hs ds hd]
      exact getStream_set_ne d h h' _ hne
  | evTrailers h hs =>
    simp only [Cmd.handle] at hne
    rcases hd : d.getStream h with _ | ds
    · rw [step_evTrailers_absent d h hs hd]
    · rw [step_evTrailers_present d h hs ds hd]
      exact getStream_set_ne d h h' _ hne
  | evComplete h =>
    simp only [Cmd.handle] at hne
    rcases hd : d.getStream h with _ | ds
    · rw [step_evComplete_absent d h hd]
    · rw [step_evComplete_present d h ds hd]
      exact getStream_cleanup_ne d h h' hne
  | evReset h =>
    simp only [Cmd.handle] at hne
    rcases hd : d.getStream h with _ | ds
    · rw [step_evReset_absent d h hd]
    · rw [step_evReset_present d h ds hd]
      exact getStream_cleanup_ne d h h' hne

/- ### An unregistered handle stays unregistered without a new start -/

theorem getStream_step_none (d : Dispatcher) (c : Cmd) (h : Nat)
    (hd : d.getStream h = none) (hns : isStartFor h c = false) :
    (step d c).state.getStream h = none := by
  by_cases hch : h = c.handle
  · cases c with
    | startStream h2 o =>
      simp only [Cmd.handle] at hch
      subst hch
      simp [isStartFor] at hns
    | sendHeaders h2 hs e =>
      simp only [Cmd.handle] at hch
      subst hch
      rw [step_sendHeaders_absent d h hs e hd]
      exact hd
    | sendData h2 b e =>
      simp only [Cmd.handle] at hch
      subst hch
      rw [step_sendData_absent d h b e hd]
      exact hd
    | sendMetadata h2 hs e =>
      simp only [Cmd.handle] at hch
      subst hch
      rw [step_sendMetadata_absent d h hs e hd]
      exact hd
    | sendTrailers h2 hs =>
      simp only [Cmd.handle] at hch
      subst hch
      rw [step_sendTrailers_absent d h hs hd]
      exact hd
    | resetStream h2 =>
      simp only [Cmd.handle] at hch
      subst hch
      rw [step_reset_absent d h hd]
      exact hd
    | evHeaders h2 hs e =>
      simp only [Cmd.handle] at hch
      subst hch
      rw [step_evHeaders_absent d h hs e hd]
      exact hd
    | evData h2 b e =>
      simp only [Cmd.handle] at hch
      subst hch
      rw [step_evData_absent d h b e hd]
      exact hd
    | evMetadata h2 hs =>
      simp only [Cmd.handle] at hch
      subst hch
      rw [step_evMetadata_absent d h hs hd]
      exact hd
    | evTrailers h2 hs =>
      simp only [Cmd.handle] at hch
      subst hch
      rw [step_evTrailers_absent d h hs hd]
      exact hd
    | evComplete h2 =>
      simp only [Cmd.handle] at hch
      subst hch
      rw [step_evComplete_absent d h hd]
      exact hd
    | evReset h2 =>
      simp only [Cmd.handle] at hch
      subst hch
      rw [step_evReset_absent d h hd]
      exact hd
  · rw [getStream_step_ne d c h hch]
    exact hd

/- ### Every Observer notification comes from the registered adapter -/

theorem obs_step_mem (d : Dispatcher) (c : Cmd) (o : Nat) (e : ObsEvent)
    (hwf : WF d) (hmem : Action.obs o e ∈ (step d c).actions) :
    e.handle = c.handle ∧ d.getStream c.handle ≠ none := by
  cases c with
  | startStream h o2 =>
    rcases hd : d.getStream h with _ | ds
    · rw [step_start_absent d h o2 hd] at hmem
      simp at hmem
    · rw [step_start_present d h o2 ds hd] at hmem
      simp at hmem
  | sendHeaders h hs e2 =>
    rcases hd : d.getStream h with _ | ds
    · rw [step_sendHeaders_absent d h hs e2 hd] at hmem
      simp at hmem
    · rw [step_sendHeaders_present d h hs e2 ds hd] at hmem
      simp at hmem
  | sendData h b e2 =>
    rcases hd : d.getStream h with _ | ds
    · rw [step_sendData_absent d h b e2 hd] at hmem
      simp at hmem
    · rw [step_sendData_present d h b e2 ds hd] at hmem
      simp at hmem
  | sendMetadata h hs e2 =>
    rcases hd : d.getStream h with _ | ds
    · rw [step_sendMetadata_absent d h hs e2 hd] at hmem
      simp at hmem
    · rw [step_sendMetadata_present d h hs e2 ds hd] at hmem
      simp at hmem
  | sendTrailers h hs =>
    rcases hd : d.getStream h with _ | ds
    · rw [step_sendTrailers_absent d h hs hd] at hmem
      simp at hmem
    · rw [step_sendTrailers_present d h hs ds hd] at hmem
      simp at hmem
  | resetStream h =>
    rcases hd : d.getStream h with _ | ds
    · rw [step_reset_absent d h hd] at hmem
      simp at hmem
    · rw [step_reset_present d h ds hd] at hmem
      simp at hmem
      obtain ⟨ho, he⟩ := hmem
      subst he
      have hds := (hwf (h, ds) (mem_of_lookupStream d.streams_ h ds hd)).2
      exact ⟨hds, by simp [Cmd.handle, hd]⟩
  | evHeaders h hs e2 =>
    rcases hd : d.getStream h with _ | ds
    · rw [step_evHeaders_absent d h hs e2 hd] at hmem
      simp at hmem
    · rw [step_evHeaders_present d h hs e2 ds hd] at hmem
      simp at hmem
      obtain ⟨ho, he⟩ := hmem
      subst he
      have hds := (hwf (h, ds) (mem_of_lookupStream d.streams_ h ds hd)).2
      exact ⟨hds, by simp [Cmd.handle, hd]⟩
  | evData h b e2 =>
    rcases hd : d.getStream h with _ | ds
    · rw [step_evData_absent d h b e2 hd] at hmem
      simp at hmem
    · rw [step_evData_present d h b e2 ds hd] at hmem
      simp at hmem
      obtain ⟨ho, he⟩ := hmem
      subst he
      have hds := (hwf (h, ds) (mem_of_lookupStream d.streams_ h ds hd)).2
      exact ⟨hds, by simp [Cmd.handle, hd]⟩
  | evMetadata h hs =>
    rcases hd : d.getStream h with _ | ds
    · rw [step_evMetadata_absent d h hs hd] at hmem
      simp at hmem
    · rw [step_evMetadata_present d h hs ds hd] at hmem
      simp at hmem
      obtain ⟨ho, he⟩ := hmem
      subst he
      have hds := (hwf (h, ds) (mem_of_lookupStream d.streams_ h ds hd)).2
      exact ⟨hds, by simp [Cmd.handle, hd]⟩
  | evTrailers h hs =>
    rcases hd : d.getStream h with _ | ds
    · rw [step_evTrailers_absent d h hs hd] at hmem
      simp at hmem
    · rw [step_evTrailers_present d h hs ds hd] at hmem
      simp at hmem
      obtain ⟨ho, he⟩ := hmem
      subst he
      have hds := (hwf (h, ds) (mem_of_lookupStream d.streams_ h ds hd)).2
      exact ⟨hds, by simp [Cmd.handle, hd]⟩
  | evComplete h =>
    rcases hd : d.getStream h with _ | ds
    · rw [step_evComplete_absent d h hd] at hmem
      simp at hmem
    · rw [step_evComplete_present d h ds hd] at hmem
      simp at hmem
      obtain ⟨ho, he⟩ := hmem
      subst he
      have hds := (hwf (h, ds) (mem_of_lookupStream d.streams_ h ds hd)).2
      exact ⟨hds, by simp [Cmd.handle, hd]⟩
  | evReset h =>
    rcases hd : d.getStream h with _ | ds
    · rw [step_evReset_absent d h hd] at hmem
      simp at hmem
    · rw [step_evReset_present d h ds hd] at hmem
      simp at hmem
      obtain ⟨ho, he⟩ := hmem
      subst he
      have hds := (hwf (h, ds) (mem_of_lookupStream d.streams_ h ds hd)).2
      exact ⟨hds, by simp [Cmd.handle, hd]⟩

theorem no_obs_for_absent (d : Dispatcher) (c : Cmd) (h : Nat)
    (hwf : WF d) (hd : d.getStream h = none) :
    ∀ a ∈ (step d c).actions, isObsFor h a = false := by
  intro a ha
  cases a with
  | obs o e =>
    obtain ⟨htag, hreg⟩ := obs_step_mem d c o e hwf ha
    have hne : c.handle ≠ h := fun hh => hreg (hh ▸ hd)
    simpa [isObsFor, htag] using hne
  | transport t => simp [isObsFor]
  | cleanup h2 => simp [isObsFor]

/- ### NotFound statuses on an unregistered handle -/

theorem status_notFound_of_absent (d : Dispatcher) (c : Cmd) (h : Nat)
    (hd : d.getStream h = none) (hop : isSendOrResetFor h c = true) :
    (step d c).status = some EnvoyStatus.notFound := by
  cases c with
  | startStream h2 o => simp [isSendOrResetFor] at hop
  | sendHeaders h2 hs e =>
    simp [isSendOrResetFor] at hop
    subst hop
    rw [step_sendHeaders_absent d h2 hs e hd]
  | sendData h2 b e =>
    simp [isSendOrResetFor] at hop
    subst hop
    rw [step_sendData_absent d h2 b e hd]
  | sendMetadata h2 hs e =>
    simp [isSendOrResetFor] at hop
    subst hop
    rw [step_sendMetadata_absent d h2 hs e hd]
  | sendTrailers h2 hs =>
    simp [isSendOrResetFor] at hop
    subst hop
    rw [step_sendTrailers_absent d h2 hs hd]
  | resetStream h2 =>
    simp [isSendOrResetFor] at hop
    subst hop
    rw [step_reset_absent d h2 hd]
  | evHeaders h2 hs e => simp [isSendOrResetFor] at hop
  | evData h2 b e => simp [isSendOrResetFor] at hop
  | evMetadata h2 hs => simp [isSendOrResetFor] at hop
  | evTrailers h2 hs => simp [isSendOrResetFor] at hop
  | evComplete h2 => simp [isSendOrResetFor] at hop
  | evReset h2 => simp [isSendOrResetFor] at hop

/- ### Counting cleanups, initiations and terminal notifications -/

/-- One when handle `h` is registered in `d`, else zero. -/
def regInd (h : Nat) (d : Dispatcher) : Nat :=
  if d.getStream h = none then 0 else 1

theorem count_step (d : Dispatcher) (c : Cmd) (h : Nat) :
    (step d c).actions.countP (isCleanupFor h) + regInd h (step d c).state
      = (step d c).actions.countP (isNewStreamFor h) + regInd h d := by
  cases c with
  | startStream h2 o =>
    rcases hd : d.getStream h2 with _ | ds
    · rw [step_start_absent d h2 o hd]
      by_cases heq : h2 = h
      · subst heq
        simp [isCleanupFor, isNewStreamFor, regInd, getStream_cons_self, hd]
      · simp [isCleanupFor, isNewStreamFor, regInd,
              getStream_cons_ne d h2 h _ (Ne.symm heq), heq]
    · rw [step_start_present d h2 o ds hd]
      simp
  | sendHeaders h2 hs e =>
    rcases hd : d.getStream h2 with _ | ds
    · rw [step_sendHeaders_absent d h2 hs e hd]; simp
    · rw [step_sendHeaders_present d h2 hs e ds hd]
      simp [isCleanupFor, isNewStreamFor]
  | sendData h2 b e =>
    rcases hd : d.getStream h2 with _ | ds
    · rw [step_sendData_absent d h2 b e hd]; simp
    · rw [step_sendData_present d h2 b e ds hd]
      simp [isCleanupFor, isNewStreamFor]
  | sendMetadata h2 hs e =>
    rcases hd : d.getStream h2 with _ | ds
    · rw [step_sendMetadata_absent d h2 hs e hd]; simp
    · rw [step_sendMetadata_present d h2 hs e ds hd]
      simp [isCleanupFor, isNewStreamFor]
  | sendTrailers h2 hs =>
    rcases hd : d.getStream h2 with _ | ds
    · rw [step_sendTrailers_absent d h2 hs hd]; simp
    · rw [step_sendTrailers_present d h2 hs ds hd]
      simp [isCleanupFor, isNewStreamFor]
  | resetStream h2 =>
    rcases hd : d.getStream h2 with _ | ds
    · rw [step_reset_absent d h2 hd]; simp
    · rw [step_reset_present d h2 ds hd]
      by_cases heq : h2 = h
      · subst heq
        simp [isCleanupFor, isNewStreamFor, regInd, getStream_cleanup_self, hd]
      · simp [isCleanupFor, isNewStreamFor, regInd,
              getStream_cleanup_ne d h2 h (Ne.symm heq), heq]
  | evHeaders h2 hs e =>
    rcases hd : d.getStream h2 with _ | ds
    · rw [step_evHeaders_absent d h2 hs e hd]; simp
    · rw [step_evHeaders_present d h2 hs e ds hd]
      by_cases heq : h2 = h
      · subst heq
        simp [isCleanupFor, isNewStreamFor, regInd, getStream_set_self, hd]
      · simp [isCleanupFor, isNewStreamFor, regInd,
              getStream_set_ne d h2 h _ (Ne.symm heq)]
  | evData h2 b e =>
    rcases hd : d.getStream h2 with _ | ds
    · rw [step_evData_absent d h2 b e hd]; simp
    · rw [step_evData_present d h2 b e ds hd]
      simp [isCleanupFor, isNewStreamFor]
  | evMetadata h2 hs =>
    rcases hd : d.getStream h2 with _ | ds
    · rw [step_evMetadata_absent d h2 hs hd]; simp
    · rw [step_evMetadata_present d h2 hs ds hd]
      by_cases heq : h2 = h
      · subst heq
        simp [isCleanupFor, isNewStreamFor, regInd, getStream_set_self, hd]
      · simp [isCleanupFor, isNewStreamFor, regInd,
              getStream_set_ne d h2 h _ (Ne.symm heq)]
  | evTrailers h2 hs =>
    rcases hd : d.getStream h2 with _ | ds
    · rw [step_evTrailers_absent d h2 hs hd]; simp
    · rw [step_evTrailers_present d h2 hs ds hd]
      by_cases heq : h2 = h
      · subst heq
        simp [isCleanupFor, isNewStreamFor, regInd, getStream_set_self, hd]
      · simp [isCleanupFor, isNewStreamFor, regInd,
              getStream_set_ne d h2 h _ (Ne.symm heq)]
  | evComplete h2 =>
    rcases hd : d.getStream h2 with _ | ds
    · rw [step_evComplete_absent d h2 hd]; simp
    · rw [step_evComplete_present d h2 ds hd]
      by_cases heq : h2 = h
      · subst heq
        simp [isCleanupFor, isNewStreamFor, regInd, getStream_cleanup_self, hd]
      · simp [isCleanupFor, isNewStreamFor, regInd,
              getStream_cleanup_ne d h2 h (Ne.symm heq), heq]
  | evReset h2 =>
    rcases hd : d.getStream h2 with _ | ds
    · rw [step_evReset_absent d h2 hd]; simp
    · rw [step_evReset_present d h2 ds hd]
      by_cases heq : h2 = h
      · subst heq
        simp [isCleanupFor, isNewStreamFor, regInd, getStream_cleanup_self, hd]
      · simp [isCleanupFor, isNewStreamFor, regInd,
              getStream_cleanup_ne d h2 h (Ne.symm heq), heq]

theorem count_step_terminal (d : Dispatcher) (c : Cmd) (h : Nat) (hwf : WF d) :
    (step d c).actions.countP (isTerminalFor h)
      = (step d c).actions.countP (isCleanupFor h) := by
  cases c with
  | startStream h2 o =>
    rcases hd : d.getStream h2 with _ | ds
    · rw [step_start_absent d h2 o hd]
      simp [isTerminalFor, isCleanupFor, isNewStreamFor]
    · rw [step_start_present d h2 o ds hd]; simp
  | sendHeaders h2 hs e =>
    rcases hd : d.getStream h2 with _ | ds
    · rw [step_sendHeaders_absent d h2 hs e hd]; simp
    · rw [step_sendHeaders_present d h2 hs e ds hd]
      simp [isTerminalFor, isCleanupFor]
  | sendData h2 b e =>
    rcases hd : d.getStream h2 with _ | ds
    · rw [step_sendData_absent d h2 b e hd]; simp
    · rw [step_sendData_present d h2 b e ds hd]
      simp [isTerminalFor, isCleanupFor]
  | sendMetadata h2 hs e =>
    rcases hd : d.getStream h2 with _ | ds
    · rw [step_sendMetadata_absent d h2 hs e hd]; simp
    · rw [step_sendMetadata_present d h2 hs e ds hd]
      simp [isTerminalFor, isCleanupFor]
  | sendTrailers h2 hs =>
    rcases hd : d.getStream h2 with _ | ds
    · rw [step_sendTrailers_absent d h2 hs hd]; simp
    · rw [step_sendTrailers_present d h2 hs ds hd]
      simp [isTerminalFor, isCleanupFor]
  | resetStream h2 =>
    rcases hd : d.getStream h2 with _ | ds
    · rw [step_reset_absent d h2 hd]; simp
    · rw [step_reset_present d h2 ds hd]
      have hds : ds.callbacks_.stream_handle_ = h2 :=
        (hwf (h2, ds) (mem_of_lookupStream d.streams_ h2 ds hd)).2
      by_cases heq : h2 = h
      · subst heq
        simp [isTerminalFor, isCleanupFor, hds, List.countP_cons, List.countP_nil]
      · simp [isTerminalFor, isCleanupFor, hds, heq, List.countP_cons, List.countP_nil]
  | evHeaders h2 hs e =>
    rcases hd : d.getStream h2 with _ | ds
    · rw [step_evHeaders_absent d h2 hs e hd]; simp
    · rw [step_evHeaders_present d h2 hs e ds hd]
      simp [isTerminalFor, isCleanupFor]
  | evData h2 b e =>
    rcases hd : d.getStream h2 with _ | ds
    · rw [step_evData_absent d h2 b e hd]; simp
    · rw [step_evData_present d h2 b e ds hd]
      simp [isTerminalFor, isCleanupFor]
  | evMetadata h2 hs =>
    rcases hd : d.getStream h2 with _ | ds
    · rw [step_evMetadata_absent d h2 hs hd]; simp
    · rw [step_evMetadata_present d h2 hs ds hd]
      simp [isTerminalFor, isCleanupFor]
  | evTrailers h2 hs =>
    rcases hd : d.getStream h2 with _ | ds
    · rw [step_evTrailers_absent d h2 hs hd]; simp
    · rw [step_evTrailers_present d h2 hs ds hd]
      simp [isTerminalFor, isCleanupFor]
  | evComplete h2 =>
    rcases hd : d.getStream h2 with _ | ds
    · rw [step_evComplete_absent d h2 hd]; simp
    · rw [step_evComplete_present d h2 ds hd]
      have hds : ds.callbacks_.stream_handle_ = h2 :=
        (hwf (h2, ds) (mem_of_lookupStream d.streams_ h2 ds hd)).2
      by_cases heq : h2 = h
      · subst heq
        simp [isTerminalFor, isCleanupFor, hds, List.countP_cons, List.countP_nil]
      · simp [isTerminalFor, isCleanupFor, hds, heq, List.countP_cons, List.countP_nil]
  | evReset h2 =>
    rcases hd : d.getStream h2 with _ | ds
    · rw [step_evReset_absent d h2 hd]; simp
    · rw [step_evReset_present d h2 ds hd]
      have hds : ds.callbacks_.stream_handle_ = h2 :=
        (hwf (h2, ds) (mem_of_lookupStream d.streams_ h2 ds hd)).2
      by_cases heq : h2 = h
      · subst heq
        simp [isTerminalFor, isCleanupFor, hds, List.countP_cons, List.countP_nil]
      · simp [isTerminalFor, isCleanupFor, hds, heq, List.countP_cons, List.countP_nil]

theorem count_step_newStream_le (d : Dispatcher) (c : Cmd) (h : Nat) :
    (step d c).actions.countP (isNewStreamFor h)
      ≤ (if isStartFor h c then 1 else 0) := by
  cases c with
  | startStream h2 o =>
    rcases hd : d.getStream h2 with _ | ds
    · rw [step_start_absent d h2 o hd]
      by_cases heq : h2 = h
      · subst heq
        simp [isNewStreamFor, isStartFor]
      · simp [isNewStreamFor, isStartFor, heq]
    · rw [step_start_present d h2 o ds hd]; simp
  | sendHeaders h2 hs e =>
    rcases hd : d.getStream h2 with _ | ds
    · rw [step_sendHeaders_absent d h2 hs e hd]; simp
    · rw [step_sendHeaders_present d h2 hs e ds hd]
      simp [isNewStreamFor]
  | sendData h2 b e =>
    rcases hd : d.getStream h2 with _ | ds
    · rw [step_sendData_absent d h2 b e hd]; simp
    · rw [step_sendData_present d h2 b e ds hd]
      simp [isNewStreamFor]
  | sendMetadata h2 hs e =>
    rcases hd : d.getStream h2 with _ | ds
    · rw [step_sendMetadata_absent d h2 hs e hd]; simp
    · rw [step_sendMetadata_present d h2 hs e ds hd]
      simp [isNewStreamFor]
  | sendTrailers h2 hs =>
    rcases hd : d.getStream h2 with _ | ds
    · rw [step_sendTrailers_absent d h2 hs hd]; simp
    · rw [step_sendTrailers_present d h2 hs ds hd]
      simp [isNewStreamFor]
  | resetStream h2 =>
    rcases hd : d.getStream h2 with _ | ds
    · rw [step_reset_absent d h2 hd]; simp
    · rw [step_reset_present d h2 ds hd]
      simp [isNewStreamFor, isCleanupFor]
  | evHeaders h2 hs e =>
    rcases hd : d.getStream h2 with _ | ds
    · rw [step_evHeaders_absent d h2 hs e hd]; simp
    · rw [step_evHeaders_present d h2 hs e ds hd]
      simp [isNewStreamFor]
  | evData h2 b e =>
    rcases hd : d.getStream h2 with _ | ds
    · rw [step_evData_absent d h2 b e hd]; simp
    · rw [step_evData_present d h2 b e ds hd]
      simp [isNewStreamFor]
  | evMetadata h2 hs =>
    rcases hd : d.getStream h2 with _ | ds
    · rw [step_evMetadata_absent d h2 hs hd]; simp
    · rw [step_evMetadata_present d h2 hs ds hd]
      simp [isNewStreamFor]
  | evTrailers h2 hs =>
    rcases hd : d.getStream h2 with _ | ds
    · rw [step_evTrailers_absent d h2 hs hd]; simp
    · rw [step_evTrailers_present d h2 hs ds hd]
      simp [isNewStreamFor]
  | evComplete h2 =>
    rcases hd : d.getStream h2 with _ | ds
    · rw [step_evComplete_absent d h2 hd]; simp
    · rw [step_evComplete_present d h2 ds hd]
      simp [isNewStreamFor, isCleanupFor]
  | evReset h2 =>
    rcases hd : d.getStream h2 with _ | ds
    · rw [step_evReset_absent d h2 hd]; simp
    · rw [step_evReset_present d h2 ds hd]
      simp [isNewStreamFor, isCleanupFor]

/- ### Trace-level lemmas -/

theorem run_cons (d : Dispatcher) (c : Cmd) (cs : List Cmd) :
    run d (c :: cs)
      = ((run (step d c).state cs).1,
         (step d c).actions ++ (run (step d c).state cs).2) := rfl

theorem run_WF (d : Dispatcher) (cs : List Cmd) (hwf : WF d) : WF (run d cs).1 := by
  induction cs generalizing d with
  | nil => exact hwf
  | cons c cs ih =>
    rw [run_cons]
    exact ih (step d c).state (WF_step d c hwf)

theorem run_getStream_none (d : Dispatcher) (cs : List Cmd) (h : Nat)
    (hd : d.getStream h = none) (hns : ∀ c ∈ cs, isStartFor h c = false) :
    (run d cs).1.getStream h = none := by
  induction cs generalizing d with
  | nil => exact hd
  | cons c cs ih =>
    rw [run_cons]
    exact ih (step d c).state
      (getStream_step_none d c h hd (hns c (List.mem_cons_self c cs)))
      (fun c' hc' => hns c' (List.mem_cons_of_mem c hc'))

theorem run_no_obs (d : Dispatcher) (cs : List Cmd) (h : Nat)
    (hwf : WF d) (hd : d.getStream h = none)
    (hns : ∀ c ∈ cs, isStartFor h c = false) :
    ∀ a ∈ (run d cs).2, isObsFor h a = false := by
  induction cs generalizing d with
  | nil => intro a ha; simp [run] at ha
  | cons c cs ih =>
    rw [run_cons]
    intro a ha
    rcases List.mem_append.mp ha with h1 | h2
    · exact no_obs_for_absent d c h hwf hd a h1
    · exact ih (step d c).state (WF_step d c hwf)
        (getStream_step_none d c h hd (hns c (List.mem_cons_self c cs)))
        (fun c' hc' => hns c' (List.mem_cons_of_mem c hc')) a h2

theorem run_count (d : Dispatcher) (cs : List Cmd) (h : Nat) :
    (run d cs).2.countP (isCleanupFor h) + regInd h (run d cs).1
      = (run d cs).2.countP (isNewStreamFor h) + regInd h d := by
  induction cs generalizing d with
  | nil => simp [run]
  | cons c cs ih =>
    rw [run_cons]
    simp only [List.countP_append]
    have h1 := count_step d c h
    have h2 := ih (step d c).state
    omega

theorem run_terminal_eq_cleanup (d : Dispatcher) (cs : List Cmd) (h : Nat)
    (hwf : WF d) :
    (run d cs).2.countP (isTerminalFor h) = (run d cs).2.countP (isCleanupFor h) := by
  induction cs generalizing d with
  | nil => simp [run]
  | cons c cs ih =>
    rw [run_cons]
    simp only [List.countP_append]
    rw [count_step_terminal d c h hwf, ih (step d c).state (WF_step d c hwf)]

theorem run_newStream_le (d : Dispatcher) (cs : List Cmd) (h : Nat) :
    (run d cs).2.countP (isNewStreamFor h) ≤ cs.countP (isStartFor h) := by
  induction cs generalizing d with
  | nil => simp [run]
  | cons c cs ih =>
    rw [run_cons]
    simp only [List.countP_append, List.countP_cons]
    have h1 := count_step_newStream_le d c h
    have h2 := ih (step d c).state
    by_cases hc : isStartFor h c = true
    · simp only [hc, if_true] at h1 ⊢
      omega
    · simp only [Bool.not_eq_true] at hc
      simp only [hc, if_false] at h1 ⊢
      omega

/- ### Spec-side reference description of the container's frame storage -/

/-- Modelled from the spec: "the most recently received header
collection" over a trace of inbound events — the payload of the last
headers frame of the trace, if any. -/
def specLastHeaders : List Cmd → Option HeaderMap
  | [] => none
  | c :: es =>
    match specLastHeaders es with
    | some x => some x
    | none =>
      match c with
      | .evHeaders _ hs _ => some hs
      | _ => none

/-- Modelled from the spec: "an ordered sequence of received metadata
frames" — every metadata frame of the trace, in arrival order, none
dropped. -/
def specMetadataSeq : List Cmd → List HeaderMap
  | [] => []
  | .evMetadata _ hs :: es => hs :: specMetadataSeq es
  | _ :: es => specMetadataSeq es

/-- Modelled from the spec: "the most recently received trailer
collection" over a trace of inbound events. -/
def specLastTrailers : List Cmd → Option HeaderMap
  | [] => none
  | c :: es =>
    match specLastTrailers es with
    | some x => some x
    | none =>
      match c with
      | .evTrailers _ hs => some hs
      | _ => none

theorem run_frames (h : Nat) (es : List Cmd) (d : Dispatcher) (ds : DirectStream)
    (hd : d.getStream h = some ds)
    (hall : ∀ c ∈ es, isInboundFrameFor h c = true) :
    ∃ ds', (run d es).1.getStream h = some ds' ∧
      ds'.stream_handle_ = ds.stream_handle_ ∧
      ds'.callbacks_ = ds.callbacks_ ∧
      ds'.headers_ = (match specLastHeaders es with
        | some x => some x
        | none => ds.headers_) ∧
      ds'.metadata_ = ds.metadata_ ++ specMetadataSeq es ∧
      ds'.trailers_ = (match specLastTrailers es with
        | some x => some x
        | none => ds.trailers_) := by
  induction es generalizing d ds with
  | nil =>
    refine ⟨ds, hd, rfl, rfl, rfl, by simp [specMetadataSeq], rfl⟩
  | cons c es ih =>
    have hc := hall c (List.mem_cons_self c es)
    have hrest : ∀ c' ∈ es, isInboundFrameFor h c' = true :=
      fun c' hc' => hall c' (List.mem_cons_of_mem c hc')
    cases c with
    | startStream h2 o => simp [isInboundFrameFor] at hc
    | sendHeaders h2 hs e => simp [isInboundFrameFor] at hc
    | sendData h2 b e => simp [isInboundFrameFor] at hc
    | sendMetadata h2 hs e => simp [isInboundFrameFor] at hc
    | sendTrailers h2 hs => simp [isInboundFrameFor] at hc
    | resetStream h2 => simp [isInboundFrameFor] at hc
    | evComplete h2 => simp [isInboundFrameFor] at hc
    | evReset h2 => simp [isInboundFrameFor] at hc
    | evHeaders h2 hs e =>
      have hh2 : h2 = h := by simpa [isInboundFrameFor] using hc
      subst hh2
      rw [run_cons, step_evHeaders_present d h2 hs e ds hd]
      have hd1 : (⟨setStream d.streams_ h2 { ds with headers_ := some hs }⟩ :
          Dispatcher).getStream h2 = some { ds with headers_ := some hs } := by
        rw [getStream_set_self]
        simp [hd]
      obtain ⟨ds', hget, hsh, hcb, hhh, hmm, htt⟩ := ih _ _ hd1 hrest
      refine ⟨ds', hget, hsh, hcb, ?_, ?_, ?_⟩
      · cases hsl : specLastHeaders es with
        | some x =>
          rw [hsl] at hhh
          simpa [specLastHeaders, hsl] using hhh
        | none =>
          rw [hsl] at hhh
          simpa [specLastHeaders, hsl] using hhh
      · simpa [specMetadataSeq] using hmm
      · cases hsl : specLastTrailers es with
        | some x =>
          rw [hsl] at htt
          simpa [specLastTrailers, hsl] using htt
        | none =>
          rw [hsl] at htt
          simpa [specLastTrailers, hsl] using htt
    | evData h2 b e =>
      have hh2 : h2 = h := by simpa [isInboundFrameFor] using hc
      subst hh2
      rw [run_cons, step_evData_present d h2 b e ds hd]
      obtain ⟨ds', hget, hsh, hcb, hhh, hmm, htt⟩ := ih _ _ hd hrest
      refine ⟨ds', hget, hsh, hcb, ?_, ?_, ?_⟩
      · cases hsl : specLastHeaders es with
        | some x =>
          rw [hsl] at hhh
          simpa [specLastHeaders, hsl] using hhh
        | none =>
          rw [hsl] at hhh
          simpa [specLastHeaders, hsl] using hhh
      · simpa [specMetadataSeq] using hmm
      · cases hsl : specLastTrailers es with
        | some x =>
          rw [hsl] at htt
          simpa [specLastTrailers, hsl] using htt
        | none =>
          rw [hsl] at htt
          simpa [specLastTrailers, hsl] using htt
    | evMetadata h2 hs =>
      have hh2 : h2 = h := by simpa [isInboundFrameFor] using hc
      subst hh2
      rw [run_cons, step_evMetadata_present d h2 hs ds hd]
      have hd1 : (⟨setStream d.streams_ h2
          { ds with metadata_ := ds.metadata_ ++ [hs] }⟩ :
          Dispatcher).getStream h2 = some { ds with metadata_ := ds.metadata_ ++ [hs] } := by
        rw [getStream_set_self]
        simp [hd]
      obtain ⟨ds', hget, hsh, hcb, hhh, hmm, htt⟩ := ih _ _ hd1 hrest
      refine ⟨ds', hget, hsh, hcb, ?_, ?_, ?_⟩
      · cases hsl : specLastHeaders es with
        | some x =>
          rw [hsl] at hhh
          simpa [specLastHeaders, hsl] using hhh
        | none =>
          rw [hsl] at hhh
          simpa [specLastHeaders, hsl] using hhh
      · simpa [specMetadataSeq] using hmm
      · cases hsl : specLastTrailers es with
        | some x =>
          rw [hsl] at htt
          simpa [specLastTrailers, hsl] using htt
        | none =>
          rw [hsl] at htt
          simpa [specLastTrailers, hsl] using htt
    | evTrailers h2 hs =>
      have hh2 : h2 = h := by simpa [isInboundFrameFor] using hc
      subst hh2
      rw [run_cons, step_evTrailers_present d h2 hs ds hd]
      have hd1 : (⟨setStream d.streams_ h2 { ds with trailers_ := some hs }⟩ :
          Dispatcher).getStream h2 = some { ds with trailers_ := some hs } := by
        rw [getStream_set_self]
        simp [hd]
      obtain ⟨ds', hget, hsh, hcb, hhh, hmm, htt⟩ := ih _ _ hd1 hrest
      refine ⟨ds', hget, hsh, hcb, ?_, ?_, ?_⟩
      · cases hsl : specLastHeaders es with
        | some x =>
          rw [hsl] at hhh
          simpa [specLastHeaders, hsl] using hhh
        | none =>
          rw [hsl] at hhh
          simpa [specLastHeaders, hsl] using hhh
      · simpa [specMetadataSeq] using hmm
      · cases hsl : specLastTrailers es with
        | some x =>
          rw [hsl] at htt
          simpa [specLastTrailers, hsl] using htt
        | none =>
          rw [hsl] at htt
          simpa [specLastTrailers, hsl] using htt

/- ### Key uniqueness -/

theorem WF_init : WF Dispatcher.init := by
  intro p hp
  simp [Dispatcher.init] at hp

theorem nodup_init : (Dispatcher.init.streams_.map Prod.fst).Nodup := by
  simp [Dispatcher.init]

theorem nodup_step (d : Dispatcher) (c : Cmd)
    (hnd : (d.streams_.map Prod.fst).Nodup) :
    (((step d c).state).streams_.map Prod.fst).Nodup := by
  cases c with
  | startStream h2 o =>
    rcases hd : d.getStream h2 with _ | ds
    · rw [step_start_absent d h2 o hd]
      simp only [List.map_cons]
      exact List.nodup_cons.mpr ⟨(lookupStream_eq_none_iff d.streams_ h2).mp hd, hnd⟩
    · rw [step_start_present d h2 o ds hd]
      exact hnd
  | sendHeaders h2 hs e =>
    rcases hd : d.getStream h2 with _ | ds
    · rw [step_sendHeaders_absent d h2 hs e hd]; exact hnd
    · rw [step_sendHeaders_present d h2 hs e ds hd]; exact hnd
  | sendData h2 b e =>
    rcases hd : d.getStream h2 with _ | ds
    · rw [step_sendData_absent d h2 b e hd]; exact hnd
    · rw [step_sendData_present d h2 b e ds hd]; exact hnd
  | sendMetadata h2 hs e =>
    rcases hd : d.getStream h2 with _ | ds
    · rw [step_sendMetadata_absent d h2 hs e hd]; exact hnd
    · rw [step_sendMetadata_present d h2 hs e ds hd]; exact hnd
  | sendTrailers h2 hs =>
    rcases hd : d.getStream h2 with _ | ds
    · rw [step_sendTrailers_absent d h2 hs hd]; exact hnd
    · rw [step_sendTrailers_present d h2 hs ds hd]; exact hnd
  | resetStream h2 =>
    rcases hd : d.getStream h2 with _ | ds
    · rw [step_reset_absent d h2 hd]; exact hnd
    · rw [step_reset_present d h2 ds hd]
      exact List.Nodup.sublist ((eraseStream_sublist d.streams_ h2).map Prod.fst) hnd
  | evHeaders h2 hs e =>
    rcases hd : d.getStream h2 with _ | ds
    · rw [step_evHeaders_absent d h2 hs e hd]; exact hnd
    · rw [step_evHeaders_present d h2 hs e ds hd]
      show ((setStream d.streams_ h2 _).map Prod.fst).Nodup
      rw [keys_setStream]
      exact hnd
  | evData h2 b e =>
    rcases hd : d.getStream h2 with _ | ds
    · rw [step_evData_absent d h2 b e hd]; exact hnd
    · rw [step_evData_present d h2 b e ds hd]; exact hnd
  | evMetadata h2 hs =>
    rcases hd : d.getStream h2 with _ | ds
    · rw [step_evMetadata_absent d h2 hs hd]; exact hnd
    · rw [step_evMetadata_present d h2 hs ds hd]
      show ((setStream d.streams_ h2 _).map Prod.fst).Nodup
      rw [keys_setStream]
      exact hnd
  | evTrailers h2 hs =>
    rcases hd : d.getStream h2 with _ | ds
    · rw [step_evTrailers_absent d h2 hs hd]; exact hnd
    · rw [step_evTrailers_present d h2 hs ds hd]
      show ((setStream d.streams_ h2 _).map Prod.fst).Nodup
      rw [keys_setStream]
      exact hnd
  | evComplete h2 =>
    rcases hd : d.getStream h2 with _ | ds
    · rw [step_evComplete_absent d h2 hd]; exact hnd
    · rw [step_evComplete_present d h2 ds hd]
      exact List.Nodup.sublist ((eraseStream_sublist d.streams_ h2).map Prod.fst) hnd
  | evReset h2 =>
    rcases hd : d.getStream h2 with _ | ds
    · rw [step_evReset_absent d h2 hd]; exact hnd
    · rw [step_evReset_present d h2 ds hd]
      exact List.Nodup.sublist ((eraseStream_sublist d.streams_ h2).map Prod.fst) hnd

/- ### Concrete data for the witnesses -/

/-- A concrete container registered under handle 1, wired to observer 5. -/
def dsEx : DirectStream := ⟨1, ⟨1, 5⟩, none, [], none⟩

/-- A concrete registry state holding exactly `dsEx` under handle 1. -/
def dEx : Dispatcher := ⟨[(1, dsEx)]⟩

/- ### The claims -/

/-- Claim C3: for every handle `h` with no registered container, each of
`sendHeaders`, `sendData`, `sendMetadata`, `sendTrailers` and
`resetStream` on `h` returns `NotFound` and leaves the entire state
(registry and every container) unchanged, and no Observer callback and
no transport call is made (the step's action list is empty). -/
theorem c3_absent_handle_noop (d : Dispatcher) (h : Nat)
    (hd : d.getStream h = none) (hs : HeaderMap) (b : ByteBuffer) (e : Bool) :
    step d (.sendHeaders h hs e) = ⟨d, some .notFound, []⟩ ∧
    step d (.sendData h b e) = ⟨d, some .notFound, []⟩ ∧
    step d (.sendMetadata h hs e) = ⟨d, some .notFound, []⟩ ∧
    step d (.sendTrailers h hs) = ⟨d, some .notFound, []⟩ ∧
    step d (.resetStream h) = ⟨d, some .notFound, []⟩ :=
  ⟨step_sendHeaders_absent d h hs e hd, step_sendData_absent d h b e hd,
   step_sendMetadata_absent d h hs e hd, step_sendTrailers_absent d h hs hd,
   step_reset_absent d h hd⟩

/-- Witness for C3 at handle 2, which is absent from `dEx`. -/
theorem c3_absent_handle_noop_witness :
    dEx.getStream 2 = none ∧
    (step dEx (.sendHeaders 2 [] false) = ⟨dEx, some .notFound, []⟩ ∧
     step dEx (.sendData 2 [] false) = ⟨dEx, some .notFound, []⟩ ∧
     step dEx (.sendMetadata 2 [] false) = ⟨dEx, some .notFound, []⟩ ∧
     step dEx (.sendTrailers 2 []) = ⟨dEx, some .notFound, []⟩ ∧
     step dEx (.resetStream 2) = ⟨dEx, some .notFound, []⟩) :=
  ⟨by decide, c3_absent_handle_noop dEx 2 (by decide) [] [] false⟩

/-- Claim C4: for every registered handle `h`, the inbound `onComplete`
delivers a final success notification to the Observer and then cleans
up, and `onReset` delivers an error notification and then cleans up; in
the ordered action list the notification strictly precedes the registry
erasure, and afterwards the entry for `h` is gone. -/
theorem c4_terminal_notify_then_cleanup (d : Dispatcher) (h : Nat)
    (ds : DirectStream) (hd : d.getStream h = some ds) :
    step d (.evComplete h)
      = ⟨d.cleanup h, none,
         [.obs ds.callbacks_.observer_ (.onComplete ds.callbacks_.stream_handle_),
          .cleanup h]⟩ ∧
    step d (.evReset h)
      = ⟨d.cleanup h, none,
         [.obs ds.callbacks_.observer_ (.onReset ds.callbacks_.stream_handle_),
          .cleanup h]⟩ ∧
    (d.cleanup h).getStream h = none :=
  ⟨step_evComplete_present d h ds hd, step_evReset_present d h ds hd,
   getStream_cleanup_self d h⟩

/-- Witness for C4 at the registered handle 1 of `dEx`. -/
theorem c4_terminal_notify_then_cleanup_witness :
    dEx.getStream 1 = some dsEx ∧
    (step dEx (.evComplete 1)
       = ⟨dEx.cleanup 1, none,
          [.obs dsEx.callbacks_.observer_ (.onComplete dsEx.callbacks_.stream_handle_),
           .cleanup 1]⟩ ∧
     step dEx (.evReset 1)
       = ⟨dEx.cleanup 1, none,
          [.obs dsEx.callbacks_.observer_ (.onReset dsEx.callbacks_.stream_handle_),
           .cleanup 1]⟩ ∧
     (dEx.cleanup 1).getStream 1 = none) :=
  ⟨by decide, c4_terminal_notify_then_cleanup dEx 1 dsEx (by decide)⟩

/-- Claim C5: a successful `startStream(h, o)` followed by
`startStream(h, o2)` has the second call return `AlreadyExists` with no
side effect — the state and action list are untouched — and the live
container's callbacks remain wired to observer `o`, never `o2`. -/
theorem c5_second_start_rejected (d : Dispatcher) (h o o2 : Nat)
    (hd : d.getStream h = none) :
    (step d (.startStream h o)).status = some .success ∧
    step (step d (.startStream h o)).state (.startStream h o2)
      = ⟨(step d (.startStream h o)).state, some .alreadyExists, []⟩ ∧
    ((step (step d (.startStream h o)).state (.startStream h o2)).state.getStream h).map
        (fun x => x.callbacks_.observer_) = some o := by
  have h1 := step_start_absent d h o hd
  have hget : (step d (.startStream h o)).state.getStream h
      = some ⟨h, ⟨h, o⟩, none, [], none⟩ := by
    rw [h1]
    exact getStream_cons_self d h _
  refine ⟨by rw [h1], step_start_present _ h o2 _ hget, ?_⟩
  rw [step_start_present _ h o2 _ hget]
  simp [hget]

/-- Witness for C5 at absent handle 2 of `dEx`, observers 7 then 8. -/
theorem c5_second_start_rejected_witness :
    dEx.getStream 2 = none ∧
    ((step dEx (.startStream 2 7)).status = some .success ∧
     step (step dEx (.startStream 2 7)).state (.startStream 2 8)
       = ⟨(step dEx (.startStream 2 7)).state, some .alreadyExists, []⟩ ∧
     ((step (step dEx (.startStream 2 7)).state (.startStream 2 8)).state.getStream 2).map
         (fun x => x.callbacks_.observer_) = some 7) :=
  ⟨by decide, c5_second_start_rejected dEx 2 7 8 (by decide)⟩

/-- Claim C9: for distinct handles, any command concerning one handle
leaves the registry entry for the other handle — and hence the entire
contents of its container: callbacks, stored headers, metadata sequence
and trailers — unchanged. -/
theorem c9_frame_other_handles (d : Dispatcher) (c : Cmd) (h2 : Nat)
    (hne : h2 ≠ c.handle) :
    (step d c).state.getStream h2 = d.getStream h2 :=
  getStream_step_ne d c h2 hne

/-- Witness for C9: resetting handle 1 leaves handle 2's lookup alone. -/
theorem c9_frame_other_handles_witness :
    (2 : Nat) ≠ (Cmd.resetStream 1).handle ∧
    (step dEx (.resetStream 1)).state.getStream 2 = dEx.getStream 2 :=
  ⟨by decide, c9_frame_other_handles dEx (.resetStream 1) 2 (by decide)⟩

/-- Claim C1: once `onComplete` or `onReset` has been processed for `h`
(and cleanup has run), the registry entry for `h` is gone; along any
subsequent trace that does not start `h` again, no Observer event
tagged `h` is ever delivered, and every send/reset operation on `h`
returns `NotFound`. -/
theorem c1_terminal_silences_handle (d : Dispatcher) (h : Nat) (c : Cmd)
    (hwf : WF d) (hterm : c = Cmd.evComplete h ∨ c = Cmd.evReset h) :
    (step d c).state.getStream h = none ∧
    ∀ cs, (∀ c' ∈ cs, isStartFor h c' = false) →
      ((run (step d c).state cs).1.getStream h = none ∧
       (∀ a ∈ (run (step d c).state cs).2, isObsFor h a = false) ∧
       (∀ op : Cmd, isSendOrResetFor h op = true →
         (step (run (step d c).state cs).1 op).status = some EnvoyStatus.notFound)) := by
  have hnone : (step d c).state.getStream h = none := by
    rcases hterm with rfl | rfl
    · rcases hd : d.getStream h with _ | ds
      · rw [step_evComplete_absent d h hd]
        exact hd
      · rw [step_evComplete_present d h ds hd]
        exact getStream_cleanup_self d h
    · rcases hd : d.getStream h with _ | ds
      · rw [step_evReset_absent d h hd]
        exact hd
      · rw [step_evReset_present d h ds hd]
        exact getStream_cleanup_self d h
  have hwf1 : WF (step d c).state := WF_step d c hwf
  refine ⟨hnone, fun cs hns => ⟨?_, ?_, ?_⟩⟩
  · exact run_getStream_none _ cs h hnone hns
  · exact run_no_obs _ cs h hwf1 hnone hns
  · intro op hop
    exact status_notFound_of_absent _ op h (run_getStream_none _ cs h hnone hns) hop

/-- Witness for C1: terminal `onComplete` on the registered handle 1. -/
theorem c1_terminal_silences_handle_witness :
    WF dEx ∧
    (Cmd.evComplete 1 = Cmd.evComplete 1 ∨ Cmd.evComplete 1 = Cmd.evReset 1) ∧
    ((step dEx (.evComplete 1)).state.getStream 1 = none ∧
     ∀ cs, (∀ c' ∈ cs, isStartFor 1 c' = false) →
       ((run (step dEx (.evComplete 1)).state cs).1.getStream 1 = none ∧
        (∀ a ∈ (run (step dEx (.evComplete 1)).state cs).2, isObsFor 1 a = false) ∧
        (∀ op : Cmd, isSendOrResetFor 1 op = true →
          (step (run (step dEx (.evComplete 1)).state cs).1 op).status
            = some EnvoyStatus.notFound))) :=
  ⟨by decide, Or.inl rfl,
   c1_terminal_silences_handle dEx 1 (.evComplete 1) (by decide) (Or.inl rfl)⟩

/-- Claim C2: registry keys are unique — initially and after every step
from a unique-key state — so at most one live container exists per
handle; and along any trace from the initial state, the number of
cleanups for `h`, plus one if a container for `h` is currently live,
equals the number of successful stream initiations for `h`: a container
exists exactly between a successful `startStream` and its single
cleanup, and cleanup fires exactly once per successful initiation. -/
theorem c2_container_lifetime (d : Dispatcher) (c : Cmd) (h : Nat) (cs : List Cmd)
    (hnd : (d.streams_.map Prod.fst).Nodup) :
    (Dispatcher.init.streams_.map Prod.fst).Nodup ∧
    (((step d c).state).streams_.map Prod.fst).Nodup ∧
    (run Dispatcher.init cs).2.countP (isCleanupFor h)
        + regInd h (run Dispatcher.init cs).1
      = (run Dispatcher.init cs).2.countP (isNewStreamFor h) := by
  refine ⟨nodup_init, nodup_step d c hnd, ?_⟩
  have hrc := run_count Dispatcher.init cs h
  have hz : regInd h Dispatcher.init = 0 := rfl
  omega

/-- Witness for C2 on the trace start-then-reset of handle 1. -/
theorem c2_container_lifetime_witness :
    (dEx.streams_.map Prod.fst).Nodup ∧
    ((Dispatcher.init.streams_.map Prod.fst).Nodup ∧
     (((step dEx (.startStream 2 7)).state).streams_.map Prod.fst).Nodup ∧
     (run Dispatcher.init [Cmd.startStream 1 5, Cmd.resetStream 1]).2.countP (isCleanupFor 1)
         + regInd 1 (run Dispatcher.init [Cmd.startStream 1 5, Cmd.resetStream 1]).1
       = (run Dispatcher.init [Cmd.startStream 1 5, Cmd.resetStream 1]).2.countP
           (isNewStreamFor 1)) :=
  ⟨by decide,
   c2_container_lifetime dEx (.startStream 2 7) 1
     [Cmd.startStream 1 5, Cmd.resetStream 1] (by decide)⟩

/-- Claim C6: for a registered handle, a local half-close — a send of
headers, data or metadata with the end flag (either value), or sending
trailers — never removes the registry entry; and any command after
which the entry for `h` is gone is `resetStream h`, `onComplete` for
`h`, or `onReset` for `h`. -/
theorem c6_local_halfclose_keeps_entry (d : Dispatcher) (h : Nat)
    (ds : DirectStream) (hd : d.getStream h = some ds) :
    (∀ (hs : HeaderMap) (b : ByteBuffer) (e : Bool),
      (step d (.sendHeaders h hs e)).state.getStream h = some ds ∧
      (step d (.sendData h b e)).state.getStream h = some ds ∧
      (step d (.sendMetadata h hs e)).state.getStream h = some ds ∧
      (step d (.sendTrailers h hs)).state.getStream h = some ds) ∧
    (∀ c : Cmd, (step d c).state.getStream h = none →
      c = .resetStream h ∨ c = .evComplete h ∨ c = .evReset h) := by
  constructor
  · intro hs b e
    refine ⟨?_, ?_, ?_, ?_⟩
    · rw [step_sendHeaders_present d h hs e ds hd]
      exact hd
    · rw [step_sendData_present d h b e ds hd]
      exact hd
    · rw [step_sendMetadata_present d h hs e ds hd]
      exact hd
    · rw [step_sendTrailers_present d h hs ds hd]
      exact hd
  · intro c hcnone
    by_cases hch : h = c.handle
    · cases c with
      | startStream h2 o =>
        simp only [Cmd.handle] at hch
        subst hch
        rw [step_start_present d h o ds hd] at hcnone
        simp [hd] at hcnone
      | sendHeaders h2 hs e =>
        simp only [Cmd.handle] at hch
        subst hch
        rw [step_sendHeaders_present d h hs e ds hd] at hcnone
        simp [hd] at hcnone
      | sendData h2 b e =>
        simp only [Cmd.handle] at hch
        subst hch
        rw [step_sendData_present d h b e ds hd] at hcnone
        simp [hd] at hcnone
      | sendMetadata h2 hs e =>
        simp only [Cmd.handle] at hch
        subst hch
        rw [step_sendMetadata_present d h hs e ds hd] at hcnone
        simp [hd] at hcnone
      | sendTrailers h2 hs =>
        simp only [Cmd.handle] at hch
        subst hch
        rw [step_sendTrailers_present d h hs ds hd] at hcnone
        simp [hd] at hcnone
      | resetStream h2 =>
        simp only [Cmd.handle] at hch
        subst hch
        exact Or.inl rfl
      | evHeaders h2 hs e =>
        simp only [Cmd.handle] at hch
        subst hch
        rw [step_evHeaders_present d h hs e ds hd] at hcnone
        rw [getStream_set_self] at hcnone
        simp [hd] at hcnone
      | evData h2 b e =>
        simp only [Cmd.handle] at hch
        subst hch
        rw [step_evData_present d h b e ds hd] at hcnone
        simp [hd] at hcnone
      | evMetadata h2 hs =>
        simp only [Cmd.handle] at hch
        subst hch
        rw [step_evMetadata_present d h hs ds hd] at hcnone
        rw [getStream_set_self] at hcnone
        simp [hd] at hcnone
      | evTrailers h2 hs =>
        simp only [Cmd.handle] at hch
        subst hch
        rw [step_evTrailers_present d h hs ds hd] at hcnone
        rw [getStream_set_self] at hcnone
        simp [hd] at hcnone
      | evComplete h2 =>
        simp only [Cmd.handle] at hch
        subst hch
        exact Or.inr (Or.inl rfl)
      | evReset h2 =>
        simp only [Cmd.handle] at hch
        subst hch
        exact Or.inr (Or.inr rfl)
    · rw [getStream_step_ne d c h hch] at hcnone
      simp [hd] at hcnone

/-- Witness for C6 at the registered handle 1 of `dEx`. -/
theorem c6_local_halfclose_keeps_entry_witness :
    dEx.getStream 1 = some dsEx ∧
    ((∀ (hs : HeaderMap) (b : ByteBuffer) (e : Bool),
       (step dEx (.sendHeaders 1 hs e)).state.getStream 1 = some dsEx ∧
       (step dEx (.sendData 1 b e)).state.getStream 1 = some dsEx ∧
       (step dEx (.sendMetadata 1 hs e)).state.getStream 1 = some dsEx ∧
       (step dEx (.sendTrailers 1 hs)).state.getStream 1 = some dsEx) ∧
     (∀ c : Cmd, (step dEx c).state.getStream 1 = none →
       c = .resetStream 1 ∨ c = .evComplete 1 ∨ c = .evReset 1)) :=
  ⟨by decide, c6_local_halfclose_keeps_entry dEx 1 dsEx (by decide)⟩

/-- Claim C7: for a registered handle, `resetStream` twice in a row
yields `Success` then `NotFound`, the second call being a complete
no-op; and along any whole run from the initial state that initiates
`h` at most once, the Observer receives at most one terminal
notification (`onComplete` or `onReset`) for `h`. -/
theorem c7_double_reset_single_terminal (d : Dispatcher) (h : Nat)
    (ds : DirectStream) (cs : List Cmd)
    (hd : d.getStream h = some ds)
    (hstart : cs.countP (isStartFor h) ≤ 1) :
    (step d (.resetStream h)).status = some .success ∧
    step (step d (.resetStream h)).state (.resetStream h)
      = ⟨(step d (.resetStream h)).state, some .notFound, []⟩ ∧
    (run Dispatcher.init cs).2.countP (isTerminalFor h) ≤ 1 := by
  have h1 := step_reset_present d h ds hd
  have hnone : (step d (.resetStream h)).state.getStream h = none := by
    rw [h1]
    exact getStream_cleanup_self d h
  refine ⟨by rw [h1], step_reset_absent _ h hnone, ?_⟩
  have ht := run_terminal_eq_cleanup Dispatcher.init cs h WF_init
  have hc := run_count Dispatcher.init cs h
  have hn := run_newStream_le Dispatcher.init cs h
  have hz : regInd h Dispatcher.init = 0 := rfl
  omega

/-- Witness for C7: double reset of handle 1 and a start-complete run. -/
theorem c7_double_reset_single_terminal_witness :
    dEx.getStream 1 = some dsEx ∧
    ([Cmd.startStream 1 5, Cmd.evComplete 1].countP (isStartFor 1) ≤ 1) ∧
    ((step dEx (.resetStream 1)).status = some .success ∧
     step (step dEx (.resetStream 1)).state (.resetStream 1)
       = ⟨(step dEx (.resetStream 1)).state, some .notFound, []⟩ ∧
     (run Dispatcher.init [Cmd.startStream 1 5, Cmd.evComplete 1]).2.countP
         (isTerminalFor 1) ≤ 1) :=
  ⟨by decide, by decide,
   c7_double_reset_single_terminal dEx 1 dsEx
     [Cmd.startStream 1 5, Cmd.evComplete 1] (by decide) (by decide)⟩

/-- Claim C8: starting a stream and then processing any trace of inbound
headers/data/metadata/trailers frames for it leaves the container
holding exactly the most recently received header collection, the
ordered sequence of all metadata frames received (each appended, none
dropped), and the most recently received trailer collection, as given
by the spec-side reference functions. -/
theorem c8_container_frame_storage (d : Dispatcher) (h o : Nat) (es : List Cmd)
    (hd : d.getStream h = none)
    (hall : ∀ c ∈ es, isInboundFrameFor h c = true) :
    ∃ ds', (run (step d (.startStream h o)).state es).1.getStream h = some ds' ∧
      ds'.headers_ = specLastHeaders es ∧
      ds'.metadata_ = specMetadataSeq es ∧
      ds'.trailers_ = specLastTrailers es := by
  have h1 := step_start_absent d h o hd
  have hget : (step d (.startStream h o)).state.getStream h
      = some ⟨h, ⟨h, o⟩, none, [], none⟩ := by
    rw [h1]
    exact getStream_cons_self d h _
  obtain ⟨ds', hg, hsh, hcb, hhh, hmm, htt⟩ := run_frames h es _ _ hget hall
  refine ⟨ds', hg, ?_, ?_, ?_⟩
  · cases hsl : specLastHeaders es with
    | some x => simp [hsl] at hhh; exact hhh
    | none => simp [hsl] at hhh; exact hhh
  · simpa using hmm
  · cases hsl : specLastTrailers es with
    | some x => simp [hsl] at htt; exact htt
    | none => simp [hsl] at htt; exact htt

/-- Witness for C8: a headers, two metadata, and a trailers frame. -/
theorem c8_container_frame_storage_witness :
    Dispatcher.init.getStream 1 = none ∧
    (∀ c ∈ [Cmd.evHeaders 1 [(":status", "200")] false,
            Cmd.evMetadata 1 [("m", "1")],
            Cmd.evMetadata 1 [("m", "2")],
            Cmd.evTrailers 1 [("t", "x")]], isInboundFrameFor 1 c = true) ∧
    (∃ ds', (run (step Dispatcher.init (.startStream 1 5)).state
        [Cmd.evHeaders 1 [(":status", "200")] false,
         Cmd.evMetadata 1 [("m", "1")],
         Cmd.evMetadata 1 [("m", "2")],
         Cmd.evTrailers 1 [("t", "x")]]).1.getStream 1 = some ds' ∧
      ds'.headers_ = specLastHeaders
        [Cmd.evHeaders 1 [(":status", "200")] false,
         Cmd.evMetadata 1 [("m", "1")],
         Cmd.evMetadata 1 [("m", "2")],
         Cmd.evTrailers 1 [("t", "x")]] ∧
      ds'.metadata_ = specMetadataSeq
        [Cmd.evHeaders 1 [(":status", "200")] false,
         Cmd.evMetadata 1 [("m", "1")],
         Cmd.evMetadata 1 [("m", "2")],
         Cmd.evTrailers 1 [("t", "x")]] ∧
      ds'.trailers_ = specLastTrailers
        [Cmd.evHeaders 1 [(":status", "200")] false,
         Cmd.evMetadata 1 [("m", "1")],
         Cmd.evMetadata 1 [("m", "2")],
         Cmd.evTrailers 1 [("t", "x")]]) :=
  ⟨rfl, by decide,
   c8_container_frame_storage Dispatcher.init 1 5
     [Cmd.evHeaders 1 [(":status", "200")] false,
      Cmd.evMetadata 1 [("m", "1")],
      Cmd.evMetadata 1 [("m", "2")],
      Cmd.evTrailers 1 [("t", "x")]] rfl (by decide)⟩

/-- Claim C10: in a well-formed reachable state, the handle stored in a
registered container and in its Inbound Event Adapter equals the key it
is registered under; well-formedness holds initially and is preserved
by every step; and every Observer notification a step emits is tagged
with exactly the handle the command addressed — the handle the emitting
container is registered under. -/
theorem c10_handle_agreement (d : Dispatcher) (c : Cmd) (h : Nat)
    (ds : DirectStream) (hwf : WF d) (hd : d.getStream h = some ds) :
    (ds.stream_handle_ = h ∧ ds.callbacks_.stream_handle_ = h) ∧
    WF Dispatcher.init ∧
    WF (step d c).state ∧
    (∀ o e, Action.obs o e ∈ (step d c).actions → e.handle = c.handle) := by
  have hm := hwf (h, ds) (mem_of_lookupStream d.streams_ h ds hd)
  exact ⟨⟨hm.1, hm.2⟩, WF_init, WF_step d c hwf,
    fun o e hmem => (obs_step_mem d c o e hwf hmem).1⟩

/-- Witness for C10 at the registered handle 1 of `dEx`. -/
theorem c10_handle_agreement_witness :
    WF dEx ∧
    dEx.getStream 1 = some dsEx ∧
    ((dsEx.stream_handle_ = 1 ∧ dsEx.callbacks_.stream_handle_ = 1) ∧
     WF Dispatcher.init ∧
     WF (step dEx (.evHeaders 1 [] true)).state ∧
     (∀ o e, Action.obs o e ∈ (step dEx (.evHeaders 1 [] true)).actions →
       e.handle = (Cmd.evHeaders 1 [] true).handle)) :=
  ⟨by decide, by decide,
   c10_handle_agreement dEx (.evHeaders 1 [] true) 1 dsEx (by decide) (by decide)⟩

end EnvoyMobile
